import Mathlib

/-!
# Verification of the `mailbox` terminal mail client

A shallow embedding, in Lean, of the core of the `t-webber/mailbox` repository:
the typed IMAP session lifecycle (`src/fetch/connection.rs`), the message fetch
and parse pipeline (`src/fetch/parser.rs`, `Tui::new` in `src/tui/app.rs`), and
the navigation/mode state machine of the TUI (`src/tui/app.rs`,
`src/tui/states.rs`, `src/tui/writer.rs`).

External collaborators (the `imap` protocol crate, the TLS transport, the
`mail_parser` MIME decoder, the `tui_input` text editor and the `ratatui`
rendering sink) are modelled as deterministic oracles: their replies are
inputs of the embedded functions, which is exactly how the repository's own
code consumes them.  Machine integers (`u32`, `usize`) are modelled as `Nat`;
the only arithmetic the code performs on them is saturating, which `Nat`
subtraction and guarded addition reproduce.
-/

namespace Mailbox

/-! ## Input events (`ratatui::crossterm::event`)

The code only ever inspects the key *code* of a `KeyEvent` (every match is of
the form `KeyEvent { code, .. }`), so a key event is embedded as its code. -/

/-- Key codes the application distinguishes: a character key, `Esc`, or any
other key (arrows, enter, ...), which every embedded match treats uniformly. -/
inductive KeyCode where
  | char (c : Char)
  | esc
  | otherKey
deriving DecidableEq

/-- A `crossterm` event, as matched by `Tui::handle_key_events` and
`Writer::handle_key_events`. -/
inductive Event where
  | key (code : KeyCode)
  | focusGained
  | focusLost
  | mouse
  | paste (s : List Char)
  | resize (w h : Nat)
deriving DecidableEq

/-! ## The text-field collaborator (`tui_input::Input`) -/

/-- Visible text of one editable field, as owned by `Writer`.  A default
(`Input::default()`) field is empty. -/
structure Input where
  value : List Char
deriving DecidableEq

/-- Modelled from the spec: `tui_input::Input::handle_event` is the external
text-editing collaborator, not part of this repository; keystrokes forwarded
to an active field are delegated to it verbatim, a character keystroke
inserting that literal character into the field's text.  Other events leave
the modelled text unchanged. -/
def Input.handle_event (i : Input) (event : Event) : Input :=
  match event with
  | .key (.char c) => ⟨i.value ++ [c]⟩
  | _ => i

/-! ## The writer (`src/tui/writer.rs`) -/

/-- `WriterState`: which input, if any, is being edited. -/
inductive WriterState where
  | none
  | toField
  | subject
  | body
deriving DecidableEq

/-- `Writer`: the three draft fields plus the active-field sub-state. -/
structure Writer where
  subject : Input
  toField : Input
  body : Input
  state : WriterState
deriving DecidableEq

/-- `Writer::default()`: all fields empty, no field active. -/
def Writer.default : Writer :=
  { subject := ⟨[]⟩, toField := ⟨[]⟩, body := ⟨[]⟩, state := WriterState.none }

/-- `Writer::handle_key_events`.  Returns the Rust method's `bool` (whether
the event was consumed by the writer) together with the updated writer; the
match arms appear in source order, so `Esc` on an active field deactivates it
before the per-field catch-alls apply. -/
def Writer.handle_key_events (w : Writer) (event : Event) : Bool × Writer :=
  match event with
  | .key code =>
    match w.state, code with
    | WriterState.none, .char 't' => (true, { w with state := WriterState.toField })
    | WriterState.none, .char 's' => (true, { w with state := WriterState.subject })
    | WriterState.none, .char 'b' => (true, { w with state := WriterState.body })
    | WriterState.toField, .esc => (true, { w with state := WriterState.none })
    | WriterState.subject, .esc => (true, { w with state := WriterState.none })
    | WriterState.body, .esc => (true, { w with state := WriterState.none })
    | WriterState.subject, _ => (true, { w with subject := w.subject.handle_event event })
    | WriterState.body, _ => (true, { w with body := w.body.handle_event event })
    | WriterState.toField, _ => (true, { w with toField := w.toField.handle_event event })
    | WriterState.none, _ => (false, w)
  | _ => (true, w)

/-! ## TUI modes (`src/tui/states.rs`) -/

/-- `TuiMode`: the three application modes.  The default is `Help`. -/
inductive TuiMode where
  | help
  | reading
  | writing (writer : Writer)
deriving DecidableEq

/-- `TuiMode::new_writer`: `*self = Self::Writing(Writer::default())` — the
previous mode (and any draft it held) is overwritten with a fresh writer. -/
def TuiMode.new_writer (_self : TuiMode) : TuiMode :=
  TuiMode.writing Writer.default

/-! ## The IMAP connection layer (`src/fetch/connection.rs`)

The `imap` crate and the TLS transport are external collaborators; a `Server`
value records the replies they would give.  Opaque library errors
(`imap::Error`, `native_tls::Error`) are modelled as `Nat` tokens. -/

/-- `core::str::Utf8Error`, opaque. -/
structure Utf8Error where
  valid_up_to : Nat
deriving DecidableEq

/-- A raw `&[u8]` payload, abstracted by what `from_utf8` does to it: it is
either valid UTF-8 (yielding a string) or invalid. -/
inductive RawBytes where
  | valid (s : String)
  | invalid (e : Utf8Error)
deriving DecidableEq

/-- One `imap::types::Fetch` reply item: `Fetch::body()` is an optional byte
payload. -/
structure FetchItem where
  body : Option RawBytes
deriving DecidableEq

/-- `fetch::connection::Error`. -/
inductive ConnError where
  | imapConnection (e : Nat)
  | imapFetch (e : Nat)
  | invalidBody (e : Utf8Error)
  | invalidMailboxName (e : Nat)
  | noBody
  | noEmail
  | tlsConnection (e : Nat)
deriving DecidableEq

/-- The behaviour of the remote IMAP server (together with the `imap` crate),
as observed through the calls the repository makes: whether `SELECT` of a
mailbox succeeds, the reply to `uid_search("ALL")` (a set of uids in arbitrary
order, or a protocol error), and the reply to `uid_fetch(uid, "RFC822")`.
Errors of the collaborator are opaque `Nat` tokens. -/
structure Server where
  selectOk : String → Bool
  searchAll : Except Nat (List Nat)
  uidFetch : Nat → Except Nat (List FetchItem)
  fetchAll : Except Nat (List FetchItem)

/-- The phantom marker of `ImapSession<T>`: `None` (no mailbox selected yet)
or `MailboxSelected`. -/
inductive SessionPhase where
  | unselected
  | mailboxSelected
deriving DecidableEq

/-- `ImapSession<T>`: a live authenticated session, tagged at the type level
with its phase, exactly as the Rust `PhantomData<T>` marker tags the struct. -/
structure ImapSession (phase : SessionPhase) where
  server : Server

/-- `get_email_body` (free function of `connection.rs`): `Fetch::body()`
`ok_or(NoBody)`, then `from_utf8` with `InvalidBody` on failure. -/
def get_email_body (mail : FetchItem) : Except ConnError String :=
  match mail.body with
  | Option.none => Except.error ConnError.noBody
  | some (RawBytes.invalid e) => Except.error (ConnError.invalidBody e)
  | some (RawBytes.valid s) => Except.ok s

/-- `ImapSession::<None>::select_mailbox`: defined only on an unselected
session, which it consumes; on success the same connection is returned as a
`MailboxSelected` session. -/
def ImapSession.select_mailbox (s : ImapSession SessionPhase.unselected)
    (mailbox_name : String) :
    Except ConnError (ImapSession SessionPhase.mailboxSelected) :=
  if s.server.selectOk mailbox_name then Except.ok ⟨s.server⟩
  else Except.error (ConnError.invalidMailboxName 0)

/-- `Result::collect` over an iterator of `Result`s, as used throughout the
repository: evaluate left to right, stop at the first `Err`, otherwise return
the complete list. -/
def collectResults {α β ε : Type} (f : α → Except ε β) : List α → Except ε (List β)
  | [] => Except.ok []
  | x :: xs =>
    match f x with
    | Except.error e => Except.error e
    | Except.ok y =>
      match collectResults f xs with
      | Except.error e => Except.error e
      | Except.ok ys => Except.ok (y :: ys)

/-- `ImapSession::<MailboxSelected>::get_all_mails`: `fetch("1:*", RFC822)`,
then `get_email_body` on each item, collected fail-fast. -/
def ImapSession.get_all_mails (s : ImapSession SessionPhase.mailboxSelected) :
    Except ConnError (List String) :=
  match s.server.fetchAll with
  | Except.error e => Except.error (ConnError.imapFetch e)
  | Except.ok mails => collectResults get_email_body mails

/-- `ImapSession::<MailboxSelected>::get_mail_from_uid`: `uid_fetch`, first
reply item `ok_or(NoEmail)`, then `get_email_body`. -/
def ImapSession.get_mail_from_uid (s : ImapSession SessionPhase.mailboxSelected)
    (uid : Nat) : Except ConnError String :=
  match s.server.uidFetch uid with
  | Except.error e => Except.error (ConnError.imapFetch e)
  | Except.ok response =>
    match response.head? with
    | Option.none => Except.error ConnError.noEmail
    | some mail => get_email_body mail

/-- `uids.sort_unstable(); uids.reverse()` — ascending sort followed by a
reversal.  On `Nat` keys every correct sort returns the same list (the unique
sorted permutation), so the structurally recursive `insertionSort` embeds
`sort_unstable` exactly. -/
def sortedDescending (uids : List Nat) : List Nat :=
  (List.insertionSort (fun a b => a ≤ b) uids).reverse

/-- `ImapSession::<MailboxSelected>::get_uids`: `uid_search("ALL")`, collect,
`sort_unstable()` (ascending), then `reverse()`. -/
def ImapSession.get_uids (s : ImapSession SessionPhase.mailboxSelected) :
    Except ConnError (List Nat) :=
  match s.server.searchAll with
  | Except.error e => Except.error (ConnError.imapFetch e)
  | Except.ok uids => Except.ok (sortedDescending uids)

/-! ## The message model and parser adapter (`src/fetch/parser.rs`)

`mail_parser` is the external MIME collaborator; its decoded output
(`Message`: a list of parts carrying header lists, plus optional derived
text/HTML bodies) is an input of the embedding.  Header values are kept in
decoded form, mirroring `mail_parser::HeaderValue`. -/

/-- `mail_parser::HeaderName` (the cases the application distinguishes plus a
catch-all). -/
inductive HeaderName where
  | subject
  | date
  | fromAddr
  | toAddr
  | otherHeader (s : String)
deriving DecidableEq

/-- `mail_parser::DateTime`, abstracted by its `to_rfc3339` rendering. -/
structure DateTime where
  rfc3339 : String
deriving DecidableEq

/-- `DateTime::to_rfc3339`. -/
def DateTime.to_rfc3339 (d : DateTime) : String := d.rfc3339

/-- `mail_parser::HeaderValue`, already decoded by the collaborator. -/
inductive HeaderValue where
  | textValue (s : String)
  | dateTimeValue (d : DateTime)
  | addressValue (a : String)
  | emptyValue
deriving DecidableEq

/-- `HeaderValue::as_text`. -/
def HeaderValue.as_text : HeaderValue → Option String
  | HeaderValue.textValue s => some s
  | _ => Option.none

/-- `HeaderValue::as_datetime`. -/
def HeaderValue.as_datetime : HeaderValue → Option DateTime
  | HeaderValue.dateTimeValue d => some d
  | _ => Option.none

/-- `HeaderValue::as_address`. -/
def HeaderValue.as_address : HeaderValue → Option String
  | HeaderValue.addressValue a => some a
  | _ => Option.none

/-- `HashMap::get` on a header map built by collecting `(name, value)` pairs:
when a name occurs several times the later insertion overwrites the earlier
one, so lookup returns the value of the *last* matching pair. -/
def headersGet (hs : List (HeaderName × HeaderValue)) (name : HeaderName) :
    Option HeaderValue :=
  match hs with
  | [] => Option.none
  | (n, v) :: rest =>
    match headersGet rest name with
    | some v2 => some v2
    | Option.none => if n = name then some v else Option.none

/-- `fetch::parser::Error`. -/
inductive ParseError where
  | invalidHeaderType
  | parseFailure
  | noHeaders
  | missingHeader
deriving DecidableEq

/-- `parser::Email`: header map (kept as the collected pair list, looked up
with `headersGet`), optional HTML and plain-text bodies, and the uid the
message was fetched with. -/
structure Email where
  headers : List (HeaderName × HeaderValue)
  html : Option String
  text : Option String
  uid : Nat
deriving DecidableEq

/-- One part of a decoded `mail_parser::Message`: its header list. -/
structure MessagePart where
  headers : List (HeaderName × HeaderValue)
deriving DecidableEq

/-- A decoded `mail_parser::Message`: its parts and the `body_html(0)` /
`body_text(0)` derived bodies. -/
structure ParsedMessage where
  parts : List MessagePart
  bodyHtml : Option String
  bodyText : Option String
deriving DecidableEq

/-- The external `mail_parser::MessageParser`: what `parse` returns on each
raw payload (`None` when no message structure is found). -/
def MimeParser : Type := String → Option ParsedMessage

/-- `impl TryFrom<(u32, &[u8])> for Email`: delegate to the MIME collaborator
(`ParseFailure` when it finds no structure), take the header list of the first
part (`NoHeaders` when there is no part), and keep the derived bodies and the
uid. -/
def Email.try_from (mime : MimeParser) (uid : Nat) (value : String) :
    Except ParseError Email :=
  match mime value with
  | Option.none => Except.error ParseError.parseFailure
  | some message =>
    match message.parts.head? with
    | Option.none => Except.error ParseError.noHeaders
    | some part =>
      Except.ok { headers := part.headers, html := message.bodyHtml,
                  text := message.bodyText, uid := uid }

/-- `Email::as_headers`. -/
def Email.as_headers (e : Email) : List (HeaderName × HeaderValue) := e.headers

/-- `Email::get_header`: map lookup, `MissingHeader` when absent. -/
def Email.get_header (e : Email) (header_name : HeaderName) :
    Except ParseError HeaderValue :=
  match headersGet e.headers header_name with
  | Option.none => Except.error ParseError.missingHeader
  | some v => Except.ok v

/-- Modelled from the spec: `Email::to_plain_body` is called by the email
viewer (`src/tui/app.rs`) but its definition is not among the source files;
per the spec's text-rendering fallback, the plain-text body is returned when
the parsed structure carries one (the MIME collaborator already synthesizes a
plain-text rendering when only HTML is present), and the call fails
otherwise. -/
def Email.to_plain_body (e : Email) : Except ParseError String :=
  match e.text with
  | some t => Except.ok t
  | Option.none => Except.error ParseError.parseFailure

/-! ## Application errors (`src/errors.rs`, `src/tui/app.rs`) -/

/-- `tui::Error` (only `LayoutLengthFailure` carries meaning for the
embedding; the I/O-wrapping variants keep opaque tokens). -/
inductive TuiError where
  | clearTerminal (e : Nat)
  | disablingRawMode (e : Nat)
  | drawing (e : Nat)
  | ioKeyboard (e : Nat)
  | layoutLengthFailure
  | unknownKeyboard
deriving DecidableEq

/-- `errors::Error`, with the `From` conversions of `errors.rs` applied at
each `?` site. -/
inductive AppError where
  | credentials (e : Nat)
  | imapConnection (e : ConnError)
  | parsing (e : ParseError)
  | tuiFailure (e : TuiError)
deriving DecidableEq

/-! ## The TUI state (`src/tui/app.rs`) -/

/-- `Tui`: mode, hovered index, fetched emails, opened index, uid list and the
running flag. -/
structure Tui where
  mode : TuiMode
  current_id : Nat
  emails : List Email
  open_email_id : Option Nat
  uids : List Nat
  running : Bool
deriving DecidableEq

/-- `Tui::default()` (derived `Default`): `Help` mode, cursor `0`, empty
lists, nothing opened, not running. -/
def Tui.default : Tui :=
  { mode := TuiMode.help, current_id := 0, emails := [],
    open_email_id := Option.none, uids := [], running := false }

/-- The `match event` body of `Tui::handle_key_events` (everything after the
writer interception).  The `'j' if matches!(self.mode, TuiMode::Reading)`
guards become inner matches on the mode; `saturating_add`/`saturating_sub` on
`usize` become `Nat` addition (guarded before use) and truncated `Nat`
subtraction. -/
def Tui.dispatch (tui : Tui) (event : Event) : Tui :=
  match event with
  | Event.key (KeyCode.char ch) =>
    match ch with
    | 'q' => { tui with running := false }
    | 'j' =>
      match tui.mode with
      | TuiMode.reading =>
        let incremented := tui.current_id + 1
        if incremented < tui.emails.length then { tui with current_id := incremented }
        else tui
      | _ => tui
    | 'k' =>
      match tui.mode with
      | TuiMode.reading => { tui with current_id := tui.current_id - 1 }
      | _ => tui
    | 'l' =>
      match tui.mode with
      | TuiMode.reading => { tui with open_email_id := some tui.current_id }
      | _ => tui
    | 'h' =>
      match tui.mode with
      | TuiMode.reading => { tui with open_email_id := Option.none }
      | _ => tui
    | 'w' => { tui with mode := tui.mode.new_writer }
    | 'r' => { tui with mode := TuiMode.reading }
    | 'm' => { tui with mode := TuiMode.help }
    | _ => tui
  | _ => tui

/-- `Tui::handle_key_events`, applied to the event `read()` yielded: when the
mode is `Writing` the event is first offered to `Writer::handle_key_events`;
if the writer consumed it (`true`) the method returns at once with the updated
writer, otherwise (the writer untouched, by the `_ => return false` arm) the
global key dispatch runs. -/
def Tui.handle_key_events (tui : Tui) (event : Event) : Tui :=
  match tui.mode with
  | TuiMode.writing writer =>
    let result := writer.handle_key_events event
    if result.1 then { tui with mode := TuiMode.writing result.2 }
    else Tui.dispatch tui event
  | _ => Tui.dispatch tui event

/-- A list of events folded through `Tui::handle_key_events`, one loop
iteration each. -/
def applyEvents (tui : Tui) (events : List Event) : Tui :=
  events.foldl Tui.handle_key_events tui

/-! ## The initial batch load (`Tui::new` in `src/tui/app.rs`)

`Credentials::load` and `ImapSession::with_credentials` are the excluded
credential/transport collaborators; the embedding starts from the
authenticated, still unselected session they produce (a `Server` value). -/

/-- The fetch step of the pipeline, as inlined in `Tui::new`: `get_uids`, take
at most `limit` ids from the front, and fetch each in order, collecting
fail-fast into `(uid, body)` pairs.  `Tui::new` instantiates `limit` at
`20`. -/
def load_recent (inbox : ImapSession SessionPhase.mailboxSelected)
    (limit : Nat) : Except ConnError (List (Nat × String)) :=
  match inbox.get_uids with
  | Except.error e => Except.error e
  | Except.ok uids =>
    collectResults (fun uid =>
      match inbox.get_mail_from_uid uid with
      | Except.error e => Except.error e
      | Except.ok body => Except.ok (uid, body)) (uids.take limit)

/-- The fetch step of `load_recent`, factored for reasoning: fetch one uid
and pair it with its body. -/
def fetchStep (s : ImapSession SessionPhase.mailboxSelected) (uid : Nat) :
    Except ConnError (Nat × String) :=
  match s.get_mail_from_uid uid with
  | Except.error e => Except.error e
  | Except.ok body => Except.ok (uid, body)

/-- The parse step of the pipeline, as inlined in `Tui::new`: each `(uid,
body)` pair through `Email::try_from`, collected fail-fast, order
preserved. -/
def parse_batch (mime : MimeParser) (pairs : List (Nat × String)) :
    Except ParseError (List Email) :=
  collectResults (fun p => Email.try_from mime p.1 p.2) pairs

/-- `Tui::new`: select `INBOX` on the fresh session, run the fetch and parse
pipeline with limit `20`, and build the state as
`Self { emails: first_emails, ..Self::default() }` (note: every other field,
the `uids` field included, keeps its default). -/
def Tui.new (mime : MimeParser) (server : Server) : Except AppError Tui :=
  let session : ImapSession SessionPhase.unselected := ⟨server⟩
  match session.select_mailbox "INBOX" with
  | Except.error e => Except.error (AppError.imapConnection e)
  | Except.ok inbox =>
    match load_recent inbox 20 with
    | Except.error e => Except.error (AppError.imapConnection e)
    | Except.ok first_email_bodies =>
      match parse_batch mime first_email_bodies with
      | Except.error e => Except.error (AppError.parsing e)
      | Except.ok first_emails =>
        Except.ok { Tui.default with emails := first_emails }

/-! ## Frame rendering (`draw_emails` and the widget builders of
`src/tui/app.rs`)

`ratatui` is the external rendering sink; a widget is embedded as the data the
code computes and hands to it.  `Layout::split` always returns as many regions
as constraints, so the defensive `layout.len()` checks cannot fire and are not
part of the data path. -/

/-- `format!("{address:?}")` on the collaborator's address value: an opaque
rendering of the abstract address string. -/
def debugFormat (a : String) : String := a

/-- The four paragraphs the email viewer renders. -/
structure ViewerWidget where
  subject_txt : String
  date_txt : String
  from_txt : String
  body_txt : String
deriving DecidableEq

/-- One entry of the email-explorer list: its two text lines and whether it is
highlighted as hovered. -/
structure ExplorerItem where
  subject_line : String
  date_line : String
  highlighted : Bool
deriving DecidableEq

/-- `Tui::get_email_viewer_widget`: subject, date and from are looked up
directly on the header map, an *absent* header being replaced by a literal
placeholder (`"No subject"`, `"No date"`, `"No from"`) while a present header
of the wrong shape is a hard `InvalidHeaderType` error; the body comes from
`to_plain_body`.  Any error propagates out of the whole widget build. -/
def get_email_viewer_widget (email : Email) : Except AppError ViewerWidget :=
  match
    (match headersGet email.headers HeaderName.subject with
     | Option.none => Except.ok "No subject"
     | some value =>
       match value.as_text with
       | some t => Except.ok t
       | Option.none => Except.error ParseError.invalidHeaderType) with
  | Except.error e => Except.error (AppError.parsing e)
  | Except.ok subject_str =>
    match
      (match headersGet email.headers HeaderName.date with
       | Option.none => Except.ok "No date"
       | some value =>
         match value.as_datetime with
         | some d => Except.ok d.to_rfc3339
         | Option.none => Except.error ParseError.invalidHeaderType) with
    | Except.error e => Except.error (AppError.parsing e)
    | Except.ok date_str =>
      match
        (match headersGet email.headers HeaderName.fromAddr with
         | Option.none => Except.ok "No from"
         | some value =>
           match value.as_address with
           | some a => Except.ok (debugFormat a)
           | Option.none => Except.error ParseError.invalidHeaderType) with
      | Except.error e => Except.error (AppError.parsing e)
      | Except.ok from_str =>
        match email.to_plain_body with
        | Except.error e => Except.error (AppError.parsing e)
        | Except.ok body_str =>
          Except.ok { subject_txt := subject_str, date_txt := date_str,
                      from_txt := from_str, body_txt := body_str }

/-- `Tui::get_email_explorer_widget`: for every fetched email, in order, the
subject and date are fetched with `get_header` — which *fails* with
`MissingHeader` when the header is absent — then narrowed with
`as_text`/`as_datetime`; the per-email results are collected fail-fast, so one
bad email aborts the whole list. -/
def get_email_explorer_widget (tui : Tui) : Except AppError (List ExplorerItem) :=
  collectResults (fun p =>
    match (p.2 : Email).get_header HeaderName.subject with
    | Except.error e => Except.error (AppError.parsing e)
    | Except.ok subjectValue =>
      match subjectValue.as_text with
      | Option.none => Except.error (AppError.parsing ParseError.invalidHeaderType)
      | some subject =>
        match (p.2 : Email).get_header HeaderName.date with
        | Except.error e => Except.error (AppError.parsing e)
        | Except.ok dateValue =>
          match dateValue.as_datetime with
          | Option.none => Except.error (AppError.parsing ParseError.invalidHeaderType)
          | some d =>
            Except.ok { subject_line := subject, date_line := d.to_rfc3339,
                        highlighted := tui.current_id == p.1 })
    tui.emails.enum

/-- What one call of `Tui::draw_emails` does: panic (the unchecked
`self.emails[open_email_id]` indexing), fail with a propagated error, or
render a frame. -/
inductive DrawOutcome where
  | panicked
  | failed (e : AppError)
  | drawn (explorer : List ExplorerItem) (viewer : Option ViewerWidget)
deriving DecidableEq

/-- `Tui::draw_emails`: with an opened email, index into the list (a panic
when out of bounds), render the explorer into the left region and the viewer
into the right one; otherwise render the explorer over the whole frame.  An
error from either widget builder aborts the frame. -/
def Tui.draw_emails (tui : Tui) : DrawOutcome :=
  match tui.open_email_id with
  | some open_email_id =>
    match tui.emails.get? open_email_id with
    | Option.none => DrawOutcome.panicked
    | some email =>
      match get_email_explorer_widget tui with
      | Except.error e => DrawOutcome.failed e
      | Except.ok explorer =>
        match get_email_viewer_widget email with
        | Except.error e => DrawOutcome.failed e
        | Except.ok viewer => DrawOutcome.drawn explorer (some viewer)
  | Option.none =>
    match get_email_explorer_widget tui with
    | Except.error e => DrawOutcome.failed e
    | Except.ok explorer => DrawOutcome.drawn explorer Option.none

/-! ## Session typestate as a trace property (`src/fetch/connection.rs`)

The phase marker is erased at run time, so "fetching requires a selected
mailbox" is a property of which call sequences can be *written at all*.  The
table below transcribes the two `impl` blocks: `select_mailbox` is defined
only on `ImapSession<None>`, consumes it, and yields a `MailboxSelected`
session only on `Ok`; the three fetch/search methods are defined only on
`ImapSession<MailboxSelected>` (by `&mut`, keeping the phase).  A failed
select leaves no session value behind (the unselected one was moved), so no
further call on that session lineage can be written. -/

/-- The four public session methods. -/
inductive ApiOp where
  | selectMailboxOp
  | getAllMailsOp
  | getMailFromUidOp
  | getUidsOp
deriving DecidableEq

/-- The fetch/search operations: every method except `select_mailbox`. -/
def ApiOp.isFetchOrSearch : ApiOp → Bool
  | ApiOp.selectMailboxOp => false
  | _ => true

/-- The phase of a session lineage: unselected, selected, or dead (the
handles were consumed by a failed call and nothing was returned). -/
inductive TracePhase where
  | unselectedPh
  | selectedPh
  | deadPh
deriving DecidableEq

/-- One step of a session lineage: the call made and whether it returned
`Ok`, exactly as the method types of `connection.rs` permit. -/
def stepPhase : TracePhase → ApiOp × Bool → Option TracePhase
  | TracePhase.unselectedPh, (ApiOp.selectMailboxOp, true) => some TracePhase.selectedPh
  | TracePhase.unselectedPh, (ApiOp.selectMailboxOp, false) => some TracePhase.deadPh
  | TracePhase.selectedPh, (ApiOp.getAllMailsOp, _) => some TracePhase.selectedPh
  | TracePhase.selectedPh, (ApiOp.getMailFromUidOp, _) => some TracePhase.selectedPh
  | TracePhase.selectedPh, (ApiOp.getUidsOp, _) => some TracePhase.selectedPh
  | _, _ => Option.none

/-- The phase reached by a whole call sequence, `none` when some call in it
cannot be written on the handle available at that point. -/
def phaseAfter (p : TracePhase) : List (ApiOp × Bool) → Option TracePhase
  | [] => some p
  | step :: rest =>
    match stepPhase p step with
    | Option.none => Option.none
    | some p2 => phaseAfter p2 rest

/-! ## Concrete data used by the witnesses -/

/-- The key event carrying the character `c`. -/
def keyChar (c : Char) : Event := Event.key (KeyCode.char c)

/-- The invariant the `j`/`k` cursor keys maintain: still reading, same email
list, and the cursor in bounds (pinned to `0` on an empty list). -/
def cursorInv (emailList : List Email) (t : Tui) : Prop :=
  t.mode = TuiMode.reading ∧ t.emails = emailList ∧
    ((emailList = [] ∧ t.current_id = 0) ∨ t.current_id < emailList.length)

/-- A well-formed parsed email: subject, date, from and a plain-text body. -/
def sampleEmail : Email :=
  { headers := [(HeaderName.subject, HeaderValue.textValue "Hello"),
                (HeaderName.date, HeaderValue.dateTimeValue ⟨"2024-01-01T00:00:00Z"⟩),
                (HeaderName.fromAddr, HeaderValue.addressValue "a@b.c")],
    html := Option.none, text := some "hi", uid := 1 }

/-- A parsed email whose `Subject` header is absent (date and from present and
well-typed, plain-text body present). -/
def noSubjectEmail : Email :=
  { headers := [(HeaderName.date, HeaderValue.dateTimeValue ⟨"2024-01-01T00:00:00Z"⟩),
                (HeaderName.fromAddr, HeaderValue.addressValue "a@b.c")],
    html := Option.none, text := some "hi", uid := 1 }

/-- A server whose search reply is the (unsorted) uid set `{5, 3, 1}` and
whose every uid fetch succeeds with the payload `"body"`. -/
def sampleServer : Server :=
  { selectOk := fun _ => true,
    searchAll := Except.ok [3, 1, 5],
    uidFetch := fun _ => Except.ok [⟨some (RawBytes.valid "body")⟩],
    fetchAll := Except.ok [] }

/-- A MIME collaborator that decodes every payload into a one-part message
with a subject header and a plain-text body. -/
def sampleMime : MimeParser :=
  fun _ => some { parts := [⟨[(HeaderName.subject, HeaderValue.textValue "s")]⟩],
                  bodyHtml := Option.none, bodyText := some "text" }

/-- What `sampleMime` decodes the payload fetched for `uid` into. -/
def sampleParsedEmail (uid : Nat) : Email :=
  { headers := [(HeaderName.subject, HeaderValue.textValue "s")],
    html := Option.none, text := some "text", uid := uid }

/-- The state `Tui::new` builds against `sampleServer`/`sampleMime`: the three
mails, newest first, everything else default. -/
def sampleLoadedTui : Tui :=
  { Tui.default with
    emails := [sampleParsedEmail 5, sampleParsedEmail 3, sampleParsedEmail 1] }

/-- A reading-mode state holding one email, cursor at `0`. -/
def readingTui : Tui :=
  { Tui.default with mode := TuiMode.reading, emails := [sampleEmail] }

/-- A reading-mode state whose only email has no `Subject` header. -/
def noSubjectTui : Tui :=
  { Tui.default with mode := TuiMode.reading, emails := [noSubjectEmail] }

/-- A writing-mode state with the subject field active and holding the
partially typed text `a`. -/
def typingSubjectTui : Tui :=
  { Tui.default with
    mode := TuiMode.writing
      { subject := ⟨['a']⟩, toField := ⟨[]⟩, body := ⟨[]⟩,
        state := WriterState.subject } }

/-- A writer whose body field is active and holds the text `hi`. -/
def bodyWriter : Writer :=
  { subject := ⟨[]⟩, toField := ⟨[]⟩, body := ⟨['h', 'i']⟩,
    state := WriterState.body }

/-- A writing-mode state with the body field active. -/
def typingBodyTui : Tui :=
  { Tui.default with mode := TuiMode.writing bodyWriter, running := true }

/-- A writing-mode state holding a partially typed draft with no field
active (the subject holds `a`, `Esc` has been pressed). -/
def inactiveDraftTui : Tui :=
  { Tui.default with
    mode := TuiMode.writing
      { subject := ⟨['a']⟩, toField := ⟨[]⟩, body := ⟨[]⟩,
        state := WriterState.none } }

/-! ## C1: fetching requires a prior successful select -/

/-- A dead session lineage admits no further call. -/
theorem phaseAfter_dead (tr : List (ApiOp × Bool)) (p : TracePhase)
    (h : phaseAfter TracePhase.deadPh tr = some p) : tr = [] := by
  cases tr with
  | nil => rfl
  | cons step rest =>
    obtain ⟨op, b⟩ := step
    cases op <;> simp [phaseAfter, stepPhase] at h

/-- C1: fetch and search operations are only reachable after a successful
select.  `select_mailbox` is the only method of `ImapSession<None>` and the
three fetch/search methods exist only on `ImapSession<MailboxSelected>`
(`stepPhase` transcribes those impl blocks), so in every call sequence that
can be written on one session lineage (`phaseAfter` accepts it), any
fetch/search call is preceded by a successful `select_mailbox` — enforced by
construction, with no runtime check anywhere in `connection.rs`. -/
theorem typestate_fetch_after_select (tr : List (ApiOp × Bool))
    (p : TracePhase) (i : Nat) (op : ApiOp) (b : Bool)
    (htr : phaseAfter TracePhase.unselectedPh tr = some p)
    (hi : tr.get? i = some (op, b))
    (hfetch : op.isFetchOrSearch = true) :
    ∃ j, j < i ∧ tr.get? j = some (ApiOp.selectMailboxOp, true) := by
  cases tr with
  | nil => simp at hi
  | cons step rest =>
    obtain ⟨op0, b0⟩ := step
    cases op0 with
    | selectMailboxOp =>
      cases b0 with
      | true =>
        cases i with
        | zero =>
          simp at hi
          rw [← hi.1] at hfetch
          simp [ApiOp.isFetchOrSearch] at hfetch
        | succ i2 =>
          exact ⟨0, Nat.succ_pos i2, rfl⟩
      | false =>
        have hrest : rest = [] := by
          apply phaseAfter_dead rest p
          simpa [phaseAfter, stepPhase] using htr
        subst hrest
        cases i with
        | zero =>
          simp at hi
          rw [← hi.1] at hfetch
          simp [ApiOp.isFetchOrSearch] at hfetch
        | succ i2 => simp at hi
    | getAllMailsOp => simp [phaseAfter, stepPhase] at htr
    | getMailFromUidOp => simp [phaseAfter, stepPhase] at htr
    | getUidsOp => simp [phaseAfter, stepPhase] at htr

/-- Witness for C1 on the trace select-then-get_uids. -/
theorem typestate_fetch_after_select_witness :
    ∃ j, j < 1 ∧
      ([(ApiOp.selectMailboxOp, true), (ApiOp.getUidsOp, true)].get? j
        = some (ApiOp.selectMailboxOp, true)) :=
  typestate_fetch_after_select
    [(ApiOp.selectMailboxOp, true), (ApiOp.getUidsOp, true)]
    TracePhase.selectedPh 1 ApiOp.getUidsOp true (by decide) (by decide) (by decide)

/-! ## C2: `get_uids` returns the searched ids sorted strictly descending -/

/-- C2: whatever order (and however server-shuffled) the uid set returned by
`uid_search("ALL")` arrives in, `get_uids` returns exactly that set of ids,
sorted strictly descending — newest (largest uid) first. -/
theorem get_uids_sorted_descending (s : ImapSession SessionPhase.mailboxSelected)
    (ids : List Nat) (hsearch : s.server.searchAll = Except.ok ids)
    (hnodup : ids.Nodup) :
    ∃ out, s.get_uids = Except.ok out ∧ out.Perm ids ∧
      List.Sorted (fun a b => a > b) out := by
  refine ⟨sortedDescending ids, ?_, ?_, ?_⟩
  · simp [ImapSession.get_uids, hsearch]
  · exact (List.reverse_perm _).trans (List.perm_insertionSort _ ids)
  · have hasc : List.Sorted (fun a b => a ≤ b) (List.insertionSort (fun a b => a ≤ b) ids) :=
      List.sorted_insertionSort _ ids
    have hnd : (List.insertionSort (fun a b => a ≤ b) ids).Nodup :=
      ((List.perm_insertionSort _ ids).nodup_iff).mpr hnodup
    have hlt : List.Sorted (fun a b => a < b) (List.insertionSort (fun a b => a ≤ b) ids) :=
      List.Sorted.lt_of_le hasc hnd
    unfold sortedDescending
    rw [List.Sorted, List.pairwise_reverse]
    simpa using hlt

/-- Witness for C2 on the search reply `[3, 1, 5]`. -/
theorem get_uids_sorted_descending_witness :
    ∃ out, (⟨sampleServer⟩ : ImapSession SessionPhase.mailboxSelected).get_uids
        = Except.ok out ∧ out.Perm [3, 1, 5] ∧
      List.Sorted (fun a b => a > b) out :=
  get_uids_sorted_descending ⟨sampleServer⟩ [3, 1, 5] rfl (by decide)

/-! ## Fail-fast collection lemmas shared by the pipeline claims -/

/-- If the first `k` applications succeed and the `k`-th fails, the collected
result is exactly that error. -/
theorem collectResults_error_at {α β ε : Type} (f : α → Except ε β)
    (xs : List α) (k : Nat) (x : α) (e : ε)
    (hk : xs[k]? = some x) (hfx : f x = Except.error e)
    (hprev : ∀ j, j < k → ∀ y, xs[j]? = some y → ∃ b, f y = Except.ok b) :
    collectResults f xs = Except.error e := by
  induction xs generalizing k with
  | nil => simp at hk
  | cons hd tl ih =>
    cases k with
    | zero =>
      simp at hk
      subst hk
      simp [collectResults, hfx]
    | succ k2 =>
      obtain ⟨b, hb⟩ := hprev 0 (Nat.succ_pos k2) hd (by simp)
      simp only [List.getElem?_cons_succ] at hk
      have htl := ih k2 hk
        (fun j hj y hy => hprev (j + 1) (Nat.succ_lt_succ hj) y
          (by simpa using hy))
      simp [collectResults, hb, htl]

/-- Successful collection is pointwise success, in order. -/
theorem collectResults_ok_iff {α β ε : Type} (f : α → Except ε β)
    (xs : List α) (ys : List β) :
    collectResults f xs = Except.ok ys ↔
      List.Forall₂ (fun x y => f x = Except.ok y) xs ys := by
  induction xs generalizing ys with
  | nil =>
    constructor
    · intro h
      simp [collectResults] at h
      subst h
      exact List.Forall₂.nil
    · intro h
      cases h
      rfl
  | cons hd tl ih =>
    constructor
    · intro h
      simp only [collectResults] at h
      cases hfx : f hd with
      | error e => rw [hfx] at h; cases h
      | ok y =>
        rw [hfx] at h
        cases hrest : collectResults f tl with
        | error e => rw [hrest] at h; cases h
        | ok ys2 =>
          rw [hrest] at h
          cases h
          exact List.Forall₂.cons hfx ((ih ys2).mp hrest)
    · intro h
      cases h with
      | cons hxy hrest =>
        simp [collectResults, hxy, (ih _).mpr hrest]

/-- If every element succeeds, the collection succeeds. -/
theorem collectResults_ok_of_all {α β ε : Type} (f : α → Except ε β)
    (xs : List α) (h : ∀ x, x ∈ xs → ∃ y, f x = Except.ok y) :
    ∃ ys, collectResults f xs = Except.ok ys := by
  induction xs with
  | nil => exact ⟨[], rfl⟩
  | cons hd tl ih =>
    obtain ⟨y, hy⟩ := h hd (List.mem_cons_self hd tl)
    obtain ⟨ys, hys⟩ := ih (fun x hx => h x (List.mem_cons_of_mem hd hx))
    exact ⟨y :: ys, by simp [collectResults, hy, hys]⟩

/-- Index transport along a `Forall₂`, left to right. -/
theorem forall₂_get?_left {α β : Type} {R : α → β → Prop} {xs : List α}
    {ys : List β} (h : List.Forall₂ R xs ys) (k : Nat) (x : α)
    (hx : xs[k]? = some x) : ∃ y, ys[k]? = some y ∧ R x y := by
  induction h generalizing k x with
  | nil => simp at hx
  | @cons a b as bs hab hrest ih =>
    cases k with
    | zero =>
      simp at hx
      subst hx
      exact ⟨b, by simp, hab⟩
    | succ k2 =>
      simp only [List.getElem?_cons_succ] at hx
      obtain ⟨y, hy, hR⟩ := ih k2 x hx
      exact ⟨y, by simpa using hy, hR⟩

/-- Index transport along a `Forall₂`, right to left. -/
theorem forall₂_get?_right {α β : Type} {R : α → β → Prop} {xs : List α}
    {ys : List β} (h : List.Forall₂ R xs ys) (k : Nat) (y : β)
    (hy : ys[k]? = some y) : ∃ x, xs[k]? = some x ∧ R x y := by
  induction h generalizing k y with
  | nil => simp at hy
  | @cons a b as bs hab hrest ih =>
    cases k with
    | zero =>
      simp at hy
      subst hy
      exact ⟨a, by simp, hab⟩
    | succ k2 =>
      simp only [List.getElem?_cons_succ] at hy
      obtain ⟨x, hx, hR⟩ := ih k2 y hy
      exact ⟨x, by simpa using hx, hR⟩

/-- `load_recent` is the fetch collection over the `limit` newest uids. -/
theorem load_recent_eq (s : ImapSession SessionPhase.mailboxSelected)
    (limit : Nat) (ids : List Nat)
    (hsearch : s.server.searchAll = Except.ok ids) :
    load_recent s limit =
      collectResults (fetchStep s) ((sortedDescending ids).take limit) := by
  simp only [load_recent, ImapSession.get_uids, hsearch]
  rfl

/-- `fetchStep` succeeds exactly on a successful fetch, pairing the uid with
the body. -/
theorem fetchStep_ok_iff (s : ImapSession SessionPhase.mailboxSelected)
    (uid : Nat) (p : Nat × String) :
    fetchStep s uid = Except.ok p ↔
      p.1 = uid ∧ s.get_mail_from_uid uid = Except.ok p.2 := by
  unfold fetchStep
  cases hf : s.get_mail_from_uid uid with
  | error e =>
    constructor
    · intro h; cases h
    · intro h; cases h.2
  | ok body =>
    constructor
    · intro h
      cases h
      exact ⟨rfl, rfl⟩
    · intro h
      obtain ⟨p1, p2⟩ := p
      simp at h
      simp [h.1, h.2]

/-- `Tui::new` is selection, then the fetch collection, then the parse
collection. -/
theorem tui_new_unfold (mime : MimeParser) (server : Server) (ids : List Nat)
    (hsel : server.selectOk "INBOX" = true)
    (hsearch : server.searchAll = Except.ok ids) :
    Tui.new mime server =
      match collectResults (fetchStep ⟨server⟩)
          ((sortedDescending ids).take 20) with
      | Except.error e => Except.error (AppError.imapConnection e)
      | Except.ok pairs =>
        match parse_batch mime pairs with
        | Except.error e => Except.error (AppError.parsing e)
        | Except.ok first_emails =>
          Except.ok { Tui.default with emails := first_emails } := by
  simp only [Tui.new, ImapSession.select_mailbox, hsel, if_true]
  rw [load_recent_eq ⟨server⟩ 20 ids hsearch]

/-! ## C3: the initial batch load is fail-fast and atomic -/

/-- C3: for every id list and position `k`, if the `k`-th fetch (earlier ones
succeeding) fails, `Tui::new` returns exactly that error; if every fetch
succeeds and the `k`-th parse (earlier ones succeeding) fails, `Tui::new`
returns exactly that error — in both cases the caller receives an `Err` and
no state, hence no partial email list; and on success the state's email list
is exactly the complete batch: the 20 newest uids, each fetched and parsed,
nothing else in the state touched. -/
theorem tui_new_fail_fast_atomic (mime : MimeParser) (server : Server)
    (ids : List Nat)
    (hsel : server.selectOk "INBOX" = true)
    (hsearch : server.searchAll = Except.ok ids) :
    (∀ (k : Nat) (uid : Nat) (e : ConnError),
       ((sortedDescending ids).take 20)[k]? = some uid →
       ImapSession.get_mail_from_uid ⟨server⟩ uid = Except.error e →
       (∀ (j : Nat), j < k → ∀ (y : Nat),
          ((sortedDescending ids).take 20)[j]? = some y →
          ∃ b, ImapSession.get_mail_from_uid ⟨server⟩ y = Except.ok b) →
       Tui.new mime server = Except.error (AppError.imapConnection e)) ∧
    (∀ (k : Nat) (uid : Nat) (b : String) (pe : ParseError),
       ((sortedDescending ids).take 20)[k]? = some uid →
       (∀ (y : Nat), y ∈ (sortedDescending ids).take 20 →
          ∃ b2, ImapSession.get_mail_from_uid ⟨server⟩ y = Except.ok b2) →
       ImapSession.get_mail_from_uid ⟨server⟩ uid = Except.ok b →
       Email.try_from mime uid b = Except.error pe →
       (∀ (j : Nat), j < k → ∀ (y : Nat) (b2 : String),
          ((sortedDescending ids).take 20)[j]? = some y →
          ImapSession.get_mail_from_uid ⟨server⟩ y = Except.ok b2 →
          ∃ em, Email.try_from mime y b2 = Except.ok em) →
       Tui.new mime server = Except.error (AppError.parsing pe)) ∧
    (∀ t, Tui.new mime server = Except.ok t →
       t.mode = TuiMode.help ∧ t.current_id = 0 ∧
       t.open_email_id = Option.none ∧ t.running = false ∧ t.uids = [] ∧
       ∃ pairs,
         List.Forall₂ (fun uid p => (p : Nat × String).1 = uid ∧
             ImapSession.get_mail_from_uid ⟨server⟩ uid = Except.ok p.2)
           ((sortedDescending ids).take 20) pairs ∧
         List.Forall₂ (fun p em =>
             Email.try_from mime (p : Nat × String).1 p.2 = Except.ok em)
           pairs t.emails) := by
  refine ⟨?_, ?_, ?_⟩
  · intro k uid e hk hfail hprev
    have herr : collectResults (fetchStep ⟨server⟩)
        ((sortedDescending ids).take 20) = Except.error e := by
      apply collectResults_error_at (fetchStep ⟨server⟩) _ k uid e hk
      · simp [fetchStep, hfail]
      · intro j hj y hy
        obtain ⟨b, hb⟩ := hprev j hj y hy
        exact ⟨(y, b), by simp [fetchStep, hb]⟩
    rw [tui_new_unfold mime server ids hsel hsearch, herr]
  · intro k uid b pe hk hallfetch hfb hparse hprev
    obtain ⟨pairs, hpairs⟩ := collectResults_ok_of_all (fetchStep ⟨server⟩)
      ((sortedDescending ids).take 20)
      (fun y hy => by
        obtain ⟨b2, hb2⟩ := hallfetch y hy
        exact ⟨(y, b2), by simp [fetchStep, hb2]⟩)
    have hfa : List.Forall₂ (fun x p => fetchStep ⟨server⟩ x = Except.ok p)
        ((sortedDescending ids).take 20) pairs :=
      (collectResults_ok_iff _ _ _).mp hpairs
    obtain ⟨p, hpk, hpR⟩ := forall₂_get?_left hfa k uid hk
    obtain ⟨hp1, hp2body⟩ := (fetchStep_ok_iff _ _ _).mp hpR
    have hp2 : p.2 = b := by
      rw [hfb] at hp2body
      exact (Except.ok.inj hp2body).symm
    have perr : collectResults (fun q => Email.try_from mime
        (q : Nat × String).1 q.2) pairs = Except.error pe := by
      apply collectResults_error_at _ pairs k p pe hpk
      · rw [hp1, hp2]
        exact hparse
      · intro j hj q hq
        obtain ⟨x, hx, hxR⟩ := forall₂_get?_right hfa j q hq
        obtain ⟨hq1, hq2⟩ := (fetchStep_ok_iff _ _ _).mp hxR
        obtain ⟨em, hem⟩ := hprev j hj x q.2 hx hq2
        exact ⟨em, by rw [hq1]; exact hem⟩
    rw [tui_new_unfold mime server ids hsel hsearch, hpairs]
    simp [parse_batch, perr]
  · intro t ht
    rw [tui_new_unfold mime server ids hsel hsearch] at ht
    cases hpairs : collectResults (fetchStep ⟨server⟩)
        ((sortedDescending ids).take 20) with
    | error e => rw [hpairs] at ht; cases ht
    | ok pairs =>
      rw [hpairs] at ht
      dsimp only at ht
      cases hparse : parse_batch mime pairs with
      | error e => rw [hparse] at ht; cases ht
      | ok emails =>
        rw [hparse] at ht
        dsimp only at ht
        cases ht
        refine ⟨rfl, rfl, rfl, rfl, rfl, pairs, ?_, ?_⟩
        · exact ((collectResults_ok_iff _ _ _).mp hpairs).imp
            (fun a p hx => (fetchStep_ok_iff _ a p).mp hx)
        · exact (collectResults_ok_iff _ _ _).mp hparse

/-- Witness for C3: against `sampleServer`/`sampleMime` the load succeeds and
the success conjunct yields the complete three-mail batch. -/
theorem tui_new_fail_fast_atomic_witness :
    sampleLoadedTui.mode = TuiMode.help ∧ sampleLoadedTui.current_id = 0 ∧
    sampleLoadedTui.open_email_id = Option.none ∧
    sampleLoadedTui.running = false ∧ sampleLoadedTui.uids = [] ∧
    ∃ pairs,
      List.Forall₂ (fun uid p => (p : Nat × String).1 = uid ∧
          ImapSession.get_mail_from_uid ⟨sampleServer⟩ uid = Except.ok p.2)
        ((sortedDescending [3, 1, 5]).take 20) pairs ∧
      List.Forall₂ (fun p em =>
          Email.try_from sampleMime (p : Nat × String).1 p.2 = Except.ok em)
        pairs sampleLoadedTui.emails :=
  (tui_new_fail_fast_atomic sampleMime sampleServer [3, 1, 5] rfl rfl).2.2
    sampleLoadedTui rfl

/-- Mapping both sides of a `Forall₂` with pointwise-equal projections. -/
theorem forall₂_map_eq {α β γ : Type} {R : α → β → Prop} {f : α → γ}
    {g : β → γ} {xs : List α} {ys : List β} (h : List.Forall₂ R xs ys)
    (hfg : ∀ a b, R a b → g b = f a) : ys.map g = xs.map f := by
  induction h with
  | nil => rfl
  | @cons a b as bs hab hrest ih => simp [hfg a b hab, ih]

/-- Membership transport along a `Forall₂`, right to left. -/
theorem forall₂_mem_right {α β : Type} {R : α → β → Prop} {xs : List α}
    {ys : List β} (h : List.Forall₂ R xs ys) (y : β) (hy : y ∈ ys) :
    ∃ x, x ∈ xs ∧ R x y := by
  induction h with
  | nil => simp at hy
  | @cons a b as bs hab hrest ih =>
    rcases List.mem_cons.mp hy with h1 | h2
    · exact ⟨a, List.mem_cons_self a as, by rw [h1]; exact hab⟩
    · obtain ⟨x, hx, hR⟩ := ih h2
      exact ⟨x, List.mem_cons_of_mem a hx, hR⟩

/-- A successful `Email::try_from` keeps the uid it was given. -/
theorem try_from_ok_uid (mime : MimeParser) (uid : Nat) (v : String)
    (em : Email) (h : Email.try_from mime uid v = Except.ok em) :
    em.uid = uid := by
  unfold Email.try_from at h
  cases hm : mime v with
  | none => rw [hm] at h; cases h
  | some message =>
    rw [hm] at h
    dsimp only at h
    cases hp : message.parts.head? with
    | none => rw [hp] at h; cases h
    | some part =>
      rw [hp] at h
      dsimp only at h
      cases h
      rfl

/-! ## C4: the batch takes the `limit` newest ids, in order, ids preserved -/

/-- C4: `load_recent` takes at most `limit` ids from the front of the
descending id list and fetches exactly those, in that order (the returned
pairs carry the taken ids in sequence, each with its fetched body), and
`parse_batch` preserves the order and attaches each message's own uid: the
parsed emails' uid sequence equals the fetched id sequence. -/
theorem load_recent_takes_newest_in_order
    (s : ImapSession SessionPhase.mailboxSelected) (ids : List Nat)
    (limit : Nat) (hsearch : s.server.searchAll = Except.ok ids)
    (hok : ∀ uid, uid ∈ (sortedDescending ids).take limit →
       ∃ b, s.get_mail_from_uid uid = Except.ok b) :
    ∃ pairs, load_recent s limit = Except.ok pairs ∧
      pairs.map Prod.fst = (sortedDescending ids).take limit ∧
      pairs.length ≤ limit ∧
      (∀ p, p ∈ pairs → s.get_mail_from_uid p.1 = Except.ok p.2) ∧
      (∀ (mime : MimeParser) (emails : List Email),
        parse_batch mime pairs = Except.ok emails →
        emails.map Email.uid = pairs.map Prod.fst) := by
  obtain ⟨pairs, hpairs⟩ := collectResults_ok_of_all (fetchStep s)
    ((sortedDescending ids).take limit)
    (fun y hy => by
      obtain ⟨b, hb⟩ := hok y hy
      exact ⟨(y, b), by simp [fetchStep, hb]⟩)
  have hfa : List.Forall₂ (fun x p => fetchStep s x = Except.ok p)
      ((sortedDescending ids).take limit) pairs :=
    (collectResults_ok_iff _ _ _).mp hpairs
  have hmap : pairs.map Prod.fst = (sortedDescending ids).take limit := by
    have := forall₂_map_eq (f := fun x => x) (g := Prod.fst) hfa
      (fun a p hx => ((fetchStep_ok_iff s a p).mp hx).1)
    simpa using this
  refine ⟨pairs, ?_, hmap, ?_, ?_, ?_⟩
  · rw [load_recent_eq s limit ids hsearch]
    exact hpairs
  · calc pairs.length = ((sortedDescending ids).take limit).length :=
          hfa.length_eq.symm
      _ ≤ limit := List.length_take_le limit _
  · intro p hp
    obtain ⟨x, hx, hR⟩ := forall₂_mem_right hfa p hp
    obtain ⟨h1, h2⟩ := (fetchStep_ok_iff s x p).mp hR
    rw [h1]
    exact h2
  · intro mime emails hparse
    have hpa : List.Forall₂
        (fun p em => Email.try_from mime (p : Nat × String).1 p.2 = Except.ok em)
        pairs emails :=
      (collectResults_ok_iff _ _ _).mp hparse
    exact forall₂_map_eq hpa
      (fun p em hx => try_from_ok_uid mime p.1 p.2 em hx)

/-- Witness for C4: the mailbox `{5, 3, 1}` with limit `2` fetches ids `5`
then `3`, in that order. -/
theorem load_recent_takes_newest_in_order_witness :
    ∃ pairs, load_recent ⟨sampleServer⟩ 2 = Except.ok pairs ∧
      pairs.map Prod.fst = (sortedDescending [3, 1, 5]).take 2 ∧
      pairs.length ≤ 2 ∧
      (∀ p, p ∈ pairs →
        ImapSession.get_mail_from_uid ⟨sampleServer⟩ p.1 = Except.ok p.2) ∧
      (∀ (mime : MimeParser) (emails : List Email),
        parse_batch mime pairs = Except.ok emails →
        emails.map Email.uid = pairs.map Prod.fst) :=
  load_recent_takes_newest_in_order ⟨sampleServer⟩ [3, 1, 5] 2 rfl
    (fun _uid _ => ⟨"body", rfl⟩)

/-! ## Key-handling helper lemmas -/

/-- Outside writing mode the writer interception is skipped. -/
theorem handle_eq_dispatch (t : Tui) (e : Event)
    (h : ∀ w, t.mode ≠ TuiMode.writing w) :
    t.handle_key_events e = t.dispatch e := by
  unfold Tui.handle_key_events
  cases hm : t.mode with
  | help => rfl
  | reading => rfl
  | writing w => exact absurd hm (h w)

/-- In writing mode the event is first offered to the writer. -/
theorem handle_writing (t : Tui) (w : Writer) (e : Event)
    (h : t.mode = TuiMode.writing w) :
    t.handle_key_events e =
      if (w.handle_key_events e).1
      then { t with mode := TuiMode.writing (w.handle_key_events e).2 }
      else t.dispatch e := by
  unfold Tui.handle_key_events
  rw [h]

/-- A writer with an active field consumes every event. -/
theorem writer_consumes (w : Writer) (e : Event)
    (h : w.state ≠ WriterState.none) :
    (w.handle_key_events e).1 = true := by
  unfold Writer.handle_key_events
  cases e <;> try rfl
  dsimp only
  split <;> simp_all

/-- A writer with no active field passes every character other than
`t`/`s`/`b` through, untouched. -/
theorem writer_none_char (w : Writer) (c : Char)
    (h : w.state = WriterState.none)
    (h1 : ¬c = 't') (h2 : ¬c = 's') (h3 : ¬c = 'b') :
    w.handle_key_events (keyChar c) = (false, w) := by
  unfold Writer.handle_key_events keyChar
  dsimp only
  rw [h]
  split <;> simp_all

/-- A character sent to a writer whose body field is active is inserted
there. -/
theorem writer_body_char (w : Writer) (c : Char)
    (h : w.state = WriterState.body) :
    w.handle_key_events (keyChar c) =
      (true, { w with body := ⟨w.body.value ++ [c]⟩ }) := by
  unfold Writer.handle_key_events Input.handle_event keyChar
  rw [h]

/-- `q` quits. -/
theorem dispatch_q (t : Tui) :
    t.dispatch (keyChar 'q') = { t with running := false } := rfl

/-- `j` in reading mode: increment, unless that would leave the list. -/
theorem dispatch_j (t : Tui) (h : t.mode = TuiMode.reading) :
    t.dispatch (keyChar 'j') =
      if t.current_id + 1 < t.emails.length
      then { t with current_id := t.current_id + 1 } else t := by
  unfold Tui.dispatch keyChar
  rw [h]
  rfl

/-- `k` in reading mode: saturating decrement. -/
theorem dispatch_k (t : Tui) (h : t.mode = TuiMode.reading) :
    t.dispatch (keyChar 'k') = { t with current_id := t.current_id - 1 } := by
  unfold Tui.dispatch keyChar
  rw [h]
  rfl

/-- `l` in reading mode: open the hovered email. -/
theorem dispatch_l (t : Tui) (h : t.mode = TuiMode.reading) :
    t.dispatch (keyChar 'l') =
      { t with open_email_id := some t.current_id } := by
  unfold Tui.dispatch keyChar
  rw [h]
  rfl

/-- `h` in reading mode: close the opened email. -/
theorem dispatch_h (t : Tui) (h : t.mode = TuiMode.reading) :
    t.dispatch (keyChar 'h') =
      { t with open_email_id := Option.none } := by
  unfold Tui.dispatch keyChar
  rw [h]
  rfl

/-- `w` from the dispatch: a fresh writer. -/
theorem dispatch_w (t : Tui) :
    t.dispatch (keyChar 'w') =
      { t with mode := TuiMode.writing Writer.default } := rfl

/-- `r` from the dispatch: reading mode. -/
theorem dispatch_r (t : Tui) :
    t.dispatch (keyChar 'r') = { t with mode := TuiMode.reading } := rfl

/-- `m` from the dispatch: help mode. -/
theorem dispatch_m (t : Tui) :
    t.dispatch (keyChar 'm') = { t with mode := TuiMode.help } := rfl

/-! ## C5: the cursor saturates and stays in bounds -/

/-- One `j`/`k` step preserves the cursor invariant. -/
theorem cursorInv_step (emailList : List Email) (t : Tui) (e : Event)
    (hjk : e = keyChar 'j' ∨ e = keyChar 'k')
    (h : cursorInv emailList t) :
    cursorInv emailList (t.handle_key_events e) := by
  obtain ⟨hmode, hemails, hcur⟩ := h
  have hnw : ∀ w, t.mode ≠ TuiMode.writing w := by
    intro w hw
    rw [hmode] at hw
    cases hw
  rw [handle_eq_dispatch t e hnw]
  rcases hjk with rfl | rfl
  · rw [dispatch_j t hmode]
    by_cases hlt : t.current_id + 1 < t.emails.length
    · rw [if_pos hlt]
      refine ⟨hmode, hemails, Or.inr ?_⟩
      rw [← hemails]
      exact hlt
    · rw [if_neg hlt]
      exact ⟨hmode, hemails, hcur⟩
  · rw [dispatch_k t hmode]
    refine ⟨hmode, hemails, ?_⟩
    rcases hcur with ⟨hnil, h0⟩ | hlt
    · exact Or.inl ⟨hnil, by rw [h0]⟩
    · exact Or.inr (lt_of_le_of_lt (Nat.sub_le _ _) hlt)

/-- The cursor invariant survives any `j`/`k` sequence. -/
theorem cursorInv_fold (emailList : List Email) (t : Tui)
    (events : List Event)
    (hjk : ∀ e, e ∈ events → e = keyChar 'j' ∨ e = keyChar 'k')
    (h : cursorInv emailList t) :
    cursorInv emailList (applyEvents t events) := by
  induction events generalizing t with
  | nil => exact h
  | cons e rest ih =>
    exact ih (t.handle_key_events e)
      (fun x hx => hjk x (List.mem_cons_of_mem e hx))
      (cursorInv_step emailList t e (hjk e (List.mem_cons_self e rest)) h)

/-- C5: from cursor `0` in reading mode, after each event of any `j`/`k`
sequence the cursor stays `0` when the message list is empty, and stays within
`[0, len-1]` when it is not — `j` saturates at the end, `k` at `0`, with no
wrap and no failure. -/
theorem cursor_invariant_jk (t0 : Tui) (events : List Event)
    (hmode : t0.mode = TuiMode.reading) (hc : t0.current_id = 0)
    (hjk : ∀ e, e ∈ events → e = keyChar 'j' ∨ e = keyChar 'k') (n : Nat) :
    (t0.emails = [] → (applyEvents t0 (events.take n)).current_id = 0) ∧
    (t0.emails ≠ [] →
      (applyEvents t0 (events.take n)).current_id ≤ t0.emails.length - 1) := by
  have hinv : cursorInv t0.emails (applyEvents t0 (events.take n)) := by
    apply cursorInv_fold
    · intro e he
      exact hjk e (List.mem_of_mem_take he)
    · refine ⟨hmode, rfl, ?_⟩
      by_cases hnil : t0.emails = []
      · exact Or.inl ⟨hnil, hc⟩
      · exact Or.inr (by rw [hc]; exact List.length_pos.mpr hnil)
  obtain ⟨-, hem, hcur⟩ := hinv
  constructor
  · intro hnil
    rcases hcur with ⟨-, h0⟩ | hlt
    · exact h0
    · rw [hnil] at hlt
      simp at hlt
  · intro hnil
    rcases hcur with ⟨h1, -⟩ | hlt
    · exact absurd h1 hnil
    · exact Nat.le_pred_of_lt hlt

/-- Witness for C5 on the one-email reading state and the sequence
`j`, `j`, `k`. -/
theorem cursor_invariant_jk_witness :
    (readingTui.emails = [] →
      (applyEvents readingTui
        ([keyChar 'j', keyChar 'j', keyChar 'k'].take 3)).current_id = 0) ∧
    (readingTui.emails ≠ [] →
      (applyEvents readingTui
        ([keyChar 'j', keyChar 'j', keyChar 'k'].take 3)).current_id
        ≤ readingTui.emails.length - 1) :=
  cursor_invariant_jk readingTui [keyChar 'j', keyChar 'j', keyChar 'k']
    rfl rfl
    (by
      intro e he
      simp only [List.mem_cons, List.not_mem_nil, or_false] at he
      rcases he with rfl | rfl | rfl
      · exact Or.inl rfl
      · exact Or.inl rfl
      · exact Or.inr rfl) 3

/-! ## C9: `l` then `h` closes; `h` on a closed state is a no-op -/

/-- C9: in reading mode, `l` followed by `h` leaves `opened` at `None` for
every cursor value, and `h` when `opened` is already `None` leaves the whole
state unchanged. -/
theorem opened_l_h_roundtrip (t : Tui) (h : t.mode = TuiMode.reading) :
    ((t.handle_key_events (keyChar 'l')).handle_key_events
        (keyChar 'h')).open_email_id = Option.none ∧
    (t.open_email_id = Option.none →
      t.handle_key_events (keyChar 'h') = t) := by
  have hnw : ∀ w, t.mode ≠ TuiMode.writing w := by
    intro w hw
    rw [h] at hw
    cases hw
  constructor
  · rw [handle_eq_dispatch t _ hnw, dispatch_l t h]
    have h2 : ({ t with open_email_id := some t.current_id } : Tui).mode
        = TuiMode.reading := h
    have hnw2 : ∀ w, ({ t with open_email_id := some t.current_id } : Tui).mode
        ≠ TuiMode.writing w := by
      intro w hw
      rw [h2] at hw
      cases hw
    rw [handle_eq_dispatch _ _ hnw2, dispatch_h _ h2]
  · intro hopen
    rw [handle_eq_dispatch t _ hnw, dispatch_h t h, ← hopen]

/-- Witness for C9 on the one-email reading state. -/
theorem opened_l_h_roundtrip_witness :
    ((readingTui.handle_key_events (keyChar 'l')).handle_key_events
        (keyChar 'h')).open_email_id = Option.none ∧
    (readingTui.open_email_id = Option.none →
      readingTui.handle_key_events (keyChar 'h') = readingTui) :=
  opened_l_h_roundtrip readingTui rfl

/-! ## C10: `m`, `r`, `w` touch only the mode -/

/-- Any character key whose dispatch touches only the mode is frame-preserving
through the full handler, writer interception included. -/
theorem frame_preserved (t : Tui) (c : Char)
    (hdisp : ∀ t2 : Tui,
      (t2.dispatch (keyChar c)).current_id = t2.current_id ∧
      (t2.dispatch (keyChar c)).open_email_id = t2.open_email_id ∧
      (t2.dispatch (keyChar c)).emails = t2.emails ∧
      (t2.dispatch (keyChar c)).uids = t2.uids ∧
      (t2.dispatch (keyChar c)).running = t2.running) :
    (t.handle_key_events (keyChar c)).current_id = t.current_id ∧
    (t.handle_key_events (keyChar c)).open_email_id = t.open_email_id ∧
    (t.handle_key_events (keyChar c)).emails = t.emails ∧
    (t.handle_key_events (keyChar c)).uids = t.uids ∧
    (t.handle_key_events (keyChar c)).running = t.running := by
  cases hm : t.mode with
  | help =>
    rw [handle_eq_dispatch t _ (by intro w hw; rw [hm] at hw; cases hw)]
    exact hdisp t
  | reading =>
    rw [handle_eq_dispatch t _ (by intro w hw; rw [hm] at hw; cases hw)]
    exact hdisp t
  | writing w =>
    rw [handle_writing t w _ hm]
    by_cases hb : (w.handle_key_events (keyChar c)).1
    · rw [if_pos hb]
      exact ⟨rfl, rfl, rfl, rfl, rfl⟩
    · rw [if_neg hb]
      exact hdisp t

/-- C10: processing `m`, `r` or `w` changes at most the mode: the cursor, the
opened selection, the email list, the uid list and the running flag are
unchanged, from every state (including writing states, where a capturing
field consumes the key into the draft — still only the mode field). -/
theorem mode_keys_frame_preserving (t : Tui) :
    ((t.handle_key_events (keyChar 'm')).current_id = t.current_id ∧
     (t.handle_key_events (keyChar 'm')).open_email_id = t.open_email_id ∧
     (t.handle_key_events (keyChar 'm')).emails = t.emails ∧
     (t.handle_key_events (keyChar 'm')).uids = t.uids ∧
     (t.handle_key_events (keyChar 'm')).running = t.running) ∧
    ((t.handle_key_events (keyChar 'r')).current_id = t.current_id ∧
     (t.handle_key_events (keyChar 'r')).open_email_id = t.open_email_id ∧
     (t.handle_key_events (keyChar 'r')).emails = t.emails ∧
     (t.handle_key_events (keyChar 'r')).uids = t.uids ∧
     (t.handle_key_events (keyChar 'r')).running = t.running) ∧
    ((t.handle_key_events (keyChar 'w')).current_id = t.current_id ∧
     (t.handle_key_events (keyChar 'w')).open_email_id = t.open_email_id ∧
     (t.handle_key_events (keyChar 'w')).emails = t.emails ∧
     (t.handle_key_events (keyChar 'w')).uids = t.uids ∧
     (t.handle_key_events (keyChar 'w')).running = t.running) :=
  ⟨frame_preserved t 'm'
      (fun t2 => by rw [dispatch_m t2]; exact ⟨rfl, rfl, rfl, rfl, rfl⟩),
   frame_preserved t 'r'
      (fun t2 => by rw [dispatch_r t2]; exact ⟨rfl, rfl, rfl, rfl, rfl⟩),
   frame_preserved t 'w'
      (fun t2 => by rw [dispatch_w t2]; exact ⟨rfl, rfl, rfl, rfl, rfl⟩)⟩

/-! ## C7: `q` while a writing field captures text is a literal character -/

/-- C7: while a writing field is actively capturing text, `q` does not quit:
the running flag is untouched and the event is forwarded verbatim to the
active field (with the body active, a literal `q` lands at the end of the
body text); from every other state — help, reading, or writing with no
active field — `q` stops the event loop. -/
theorem q_literal_in_active_field (t : Tui) (w : Writer) :
    (t.mode = TuiMode.writing w → w.state ≠ WriterState.none →
      (t.handle_key_events (keyChar 'q')).running = t.running ∧
      t.handle_key_events (keyChar 'q') =
        { t with mode :=
            TuiMode.writing (w.handle_key_events (keyChar 'q')).2 } ∧
      (w.state = WriterState.body →
        ((w.handle_key_events (keyChar 'q')).2).body.value
          = w.body.value ++ ['q'])) ∧
    ((∀ w2, t.mode = TuiMode.writing w2 → w2.state = WriterState.none) →
      (t.handle_key_events (keyChar 'q')).running = false) := by
  constructor
  · intro hm hactive
    have hb : (w.handle_key_events (keyChar 'q')).1 = true :=
      writer_consumes w _ hactive
    rw [handle_writing t w _ hm, if_pos hb]
    refine ⟨rfl, rfl, ?_⟩
    intro hbody
    rw [writer_body_char w 'q' hbody]
  · intro hnone
    cases hm : t.mode with
    | help =>
      rw [handle_eq_dispatch t _ (by intro w2 hw; rw [hm] at hw; cases hw),
        dispatch_q]
    | reading =>
      rw [handle_eq_dispatch t _ (by intro w2 hw; rw [hm] at hw; cases hw),
        dispatch_q]
    | writing w2 =>
      have hpass : w2.handle_key_events (keyChar 'q') = (false, w2) :=
        writer_none_char w2 'q' (hnone w2 hm) (by decide) (by decide)
          (by decide)
      rw [handle_writing t w2 _ hm, hpass]
      rw [if_neg (by simp), dispatch_q]

/-- Witness for C7: with the body active `q` is inserted (state
`typingBodyTui`); from the default help state `q` quits. -/
theorem q_literal_in_active_field_witness :
    ((typingBodyTui.handle_key_events (keyChar 'q')).running
        = typingBodyTui.running ∧
      typingBodyTui.handle_key_events (keyChar 'q') =
        { typingBodyTui with
          mode := TuiMode.writing
            (bodyWriter.handle_key_events (keyChar 'q')).2 } ∧
      (bodyWriter.state = WriterState.body →
        ((bodyWriter.handle_key_events (keyChar 'q')).2).body.value
          = bodyWriter.body.value ++ ['q'])) ∧
    (Tui.default.handle_key_events (keyChar 'q')).running = false :=
  ⟨(q_literal_in_active_field typingBodyTui bodyWriter).1 rfl (by decide),
   (q_literal_in_active_field Tui.default bodyWriter).2
     (fun w2 hw => nomatch hw)⟩

/-! ## C8: `w` and the fresh draft — corrected -/

/-- C8 counterexample: in Writing with the subject field active and the
partially typed draft `a`, the `w` key does *not* produce a fresh empty
draft: it is captured by the active field, which now holds `aw`. -/
theorem fresh_draft_counterexample :
    typingSubjectTui.handle_key_events (keyChar 'w') ≠
      { typingSubjectTui with mode := TuiMode.writing Writer.default } ∧
    (typingSubjectTui.handle_key_events (keyChar 'w')).mode =
      TuiMode.writing
        { subject := ⟨['a', 'w']⟩, toField := ⟨[]⟩, body := ⟨[]⟩,
          state := WriterState.subject } := by
  decide

/-- C8 amended: from every state in which no writing field is actively
capturing text — help, reading, or writing with no active field, even over a
partially typed draft — `w` replaces the mode with a fresh default writer
(all fields empty, none active), discarding any in-progress draft; while a
field is active the key is instead forwarded to that field as text. -/
theorem fresh_draft_on_w (t : Tui)
    (h : ∀ w, t.mode = TuiMode.writing w → w.state = WriterState.none) :
    t.handle_key_events (keyChar 'w') =
      { t with mode := TuiMode.writing Writer.default } := by
  cases hm : t.mode with
  | help =>
    rw [handle_eq_dispatch t _ (by intro w hw; rw [hm] at hw; cases hw),
      dispatch_w]
  | reading =>
    rw [handle_eq_dispatch t _ (by intro w hw; rw [hm] at hw; cases hw),
      dispatch_w]
  | writing w =>
    have hpass : w.handle_key_events (keyChar 'w') = (false, w) :=
      writer_none_char w 'w' (h w hm) (by decide) (by decide) (by decide)
    rw [handle_writing t w _ hm, hpass]
    rw [if_neg (by simp), dispatch_w]

/-- Witness for C8 (amended): pressing `w` over an inactive partially typed
draft yields the fresh default writer. -/
theorem fresh_draft_on_w_witness :
    inactiveDraftTui.handle_key_events (keyChar 'w') =
      { inactiveDraftTui with mode := TuiMode.writing Writer.default } :=
  fresh_draft_on_w inactiveDraftTui (fun w hw => by cases hw; rfl)

/-! ## C6: the `"No subject"` placeholder — corrected

The detail viewer substitutes `"No subject"` for an absent `Subject` header,
but the email-explorer list does not: it reads the header through
`get_header`, whose `MissingHeader` error propagates through the fail-fast
collection and aborts the whole frame. -/

/-- C6 counterexample: rendering a reading-mode frame over the single
no-subject email does not complete: the explorer widget fails with
`MissingHeader` and the frame draw aborts with that error. -/
theorem subject_placeholder_counterexample :
    get_email_explorer_widget noSubjectTui =
      Except.error (AppError.parsing ParseError.missingHeader) ∧
    noSubjectTui.draw_emails =
      DrawOutcome.failed (AppError.parsing ParseError.missingHeader) := by
  constructor <;> rfl

/-- An email with no `Subject` header at the head of the list makes the
explorer widget fail with `MissingHeader`. -/
theorem explorer_head_missing_subject (t2 : Tui) (e : Email)
    (rest : List Email) (hems : t2.emails = e :: rest)
    (hsubj : headersGet e.headers HeaderName.subject = Option.none) :
    get_email_explorer_widget t2 =
      Except.error (AppError.parsing ParseError.missingHeader) := by
  unfold get_email_explorer_widget
  rw [hems]
  simp only [List.enum, List.enumFrom, collectResults]
  unfold Email.get_header
  rw [hsubj]

/-- C6 amended: a missing `Subject` header is absorbed locally only in the
*detail viewer*, which renders the literal `"No subject"` and completes
(provided the remaining fields are themselves absent or well-typed and a
plain-text body exists); in the *email-explorer list* a missing `Subject` is
not substituted: with such an email at the head of the list the widget —
and with it the frame — fails with `MissingHeader`. -/
theorem subject_placeholder_amended (email : Email) (tui : Tui)
    (hsubj : headersGet email.headers HeaderName.subject = Option.none)
    (hdate : ∀ v, headersGet email.headers HeaderName.date = some v →
      (v.as_datetime).isSome = true)
    (hfrom : ∀ v, headersGet email.headers HeaderName.fromAddr = some v →
      (v.as_address).isSome = true)
    (htext : email.text.isSome = true)
    (hhead : tui.emails.head? = some email) :
    (∃ widget, get_email_viewer_widget email = Except.ok widget ∧
      widget.subject_txt = "No subject") ∧
    get_email_explorer_widget tui =
      Except.error (AppError.parsing ParseError.missingHeader) := by
  constructor
  · unfold get_email_viewer_widget
    rw [hsubj]
    dsimp only
    cases hd : headersGet email.headers HeaderName.date with
    | none =>
      dsimp only
      cases hf : headersGet email.headers HeaderName.fromAddr with
      | none =>
        dsimp only
        unfold Email.to_plain_body
        cases ht : email.text with
        | none => rw [ht] at htext; cases htext
        | some txt => exact ⟨_, rfl, rfl⟩
      | some v =>
        obtain ⟨a, ha⟩ := Option.isSome_iff_exists.mp (hfrom v hf)
        dsimp only
        rw [ha]
        dsimp only
        unfold Email.to_plain_body
        cases ht : email.text with
        | none => rw [ht] at htext; cases htext
        | some txt => exact ⟨_, rfl, rfl⟩
    | some v =>
      obtain ⟨d, hdv⟩ := Option.isSome_iff_exists.mp (hdate v hd)
      dsimp only
      rw [hdv]
      dsimp only
      cases hf : headersGet email.headers HeaderName.fromAddr with
      | none =>
        dsimp only
        unfold Email.to_plain_body
        cases ht : email.text with
        | none => rw [ht] at htext; cases htext
        | some txt => exact ⟨_, rfl, rfl⟩
      | some v2 =>
        obtain ⟨a, ha⟩ := Option.isSome_iff_exists.mp (hfrom v2 hf)
        dsimp only
        rw [ha]
        dsimp only
        unfold Email.to_plain_body
        cases ht : email.text with
        | none => rw [ht] at htext; cases htext
        | some txt => exact ⟨_, rfl, rfl⟩
  · cases hems : tui.emails with
    | nil => rw [hems] at hhead; cases hhead
    | cons e rest =>
      rw [hems] at hhead
      have he : e = email := by simpa using hhead
      exact explorer_head_missing_subject tui e rest hems
        (by rw [he]; exact hsubj)

/-- Witness for C6 (amended) on the no-subject email and state. -/
theorem subject_placeholder_amended_witness :
    (∃ widget, get_email_viewer_widget noSubjectEmail = Except.ok widget ∧
      widget.subject_txt = "No subject") ∧
    get_email_explorer_widget noSubjectTui =
      Except.error (AppError.parsing ParseError.missingHeader) :=
  subject_placeholder_amended noSubjectEmail noSubjectTui rfl
    (fun v hv => by cases hv; rfl) (fun v hv => by cases hv; rfl) rfl rfl

end Mailbox
